import Mathlib

/-!
Shallow embedding of `src/python/cudf/cudf/core/column/string.py`
(cudf `StringColumn` / `StringMethods`) and verification of its spec.

The device-resident string storage (the external `nvstrings` library) is
not part of the source tree; its primitives (`to_offsets`, `from_offsets`,
`set_null_bitmask`, `cat`, `fillna`, `len`, and the opaque regex engine)
are modelled from the spec (§4.1 String Storage, §6 interchange layout),
as marked on each definition.  A device string column is modelled as a
list of optional strings: `none` is a null row, `some s` a valid row.
-/

set_option maxHeartbeats 1000000

namespace CudfString

/-- A device string collection (the `nvstrings` handle): one optional
string per row; `none` marks a null row. -/
abbrev Rows := List (Option String)

/-- The character payload of one row: a null row occupies a zero-length
span in the flat character buffer. -/
def rowChars : Option String → List Char
  | some s => s.data
  | none => []

/-- `nvstrings.null_count()`: number of null rows. -/
def countNulls (rows : Rows) : Nat := (rows.filter (fun r => r.isNone)).length

/-- Validity of row `i` (out-of-range rows read as invalid). -/
def validAt (rows : Rows) (i : Nat) : Bool := (rows.getD i none).isSome

/-- `cudf.utils.utils.calc_chunk_size`: ceiling division, the number of
mask words needed for `size` rows. -/
def calc_chunk_size (size chunksize : Nat) : Nat := (size + chunksize - 1) / chunksize

/-- `cudf.utils.utils.mask_bitsize`: bits per mask byte. -/
def mask_bitsize : Nat := 8

/-- Pack a list of bits, LSB first, into one byte value. -/
def byteOfBits (bits : List Bool) : Nat :=
  bits.foldr (fun b acc => (if b then 1 else 0) + 2 * acc) 0

/-- Modelled from the spec: `nvstrings.set_null_bitmask` — export the
validity as a packed bitmap, LSB-first, bit set = row valid (§6), of
`calc_chunk_size(row_count, mask_bitsize)` bytes (§3). -/
def maskBytes (rows : Rows) : List Nat :=
  (List.range (calc_chunk_size rows.length mask_bitsize)).map
    (fun j => byteOfBits ((List.range 8).map (fun k => validAt rows (8 * j + k))))

/-- Read bit `i` of a packed LSB-first validity bitmap. -/
def testBitArr (mask : List Nat) (i : Nat) : Bool :=
  Nat.testBit (mask.getD (i / 8) 0) (i % 8)

/-- The flat character buffer of the storage (§3 String Storage `chars`). -/
def charsBuf : Rows → List Char
  | [] => []
  | r :: rs => rowChars r ++ charsBuf rs

/-- The `(N+1)`-entry offsets array starting at `base` (§3 String Storage
`offsets`: prefix sums delimiting each row's span). -/
def offsetsFrom (base : Nat) : Rows → List Nat
  | [] => [base]
  | r :: rs => base :: offsetsFrom (base + (rowChars r).length) rs

/-- `nvstrings.byte_count()`: total characters in the flat buffer. -/
def byte_count (rows : Rows) : Nat := (charsBuf rows).length

/-- Sum of the payload lengths of the first `i` rows: the device offset at
which row `i` starts. -/
def startOf : Rows → Nat → Nat
  | _, 0 => 0
  | [], _ + 1 => 0
  | r :: rs, i + 1 => (rowChars r).length + startOf rs i

/-- Modelled from the spec: `nvstrings.from_offsets` — rebuild a device
string collection from a flat character buffer, an offsets array, a row
count and a packed validity bitmap (§6 interchange layout); `ncount` is
only the cached null count and does not affect the reconstructed rows. -/
def from_offsets (sbuf : List Char) (obuf : List Nat) (scount : Nat)
    (nbuf : List Nat) (ncount : Nat) : Rows :=
  let _ := ncount
  (List.range scount).map fun i =>
    if testBitArr nbuf i then
      some ⟨(sbuf.drop (obuf.getD i 0)).take (obuf.getD (i + 1) 0 - obuf.getD i 0)⟩
    else none

/-- The `StringColumn` record: the `nvstrings` handle (`_data`, here
`rows`), the cached `_null_count`, the optional `_mask` validity buffer,
and the column's `_name`. -/
structure StringColumn where
  rows : Rows
  nullCount : Nat
  maskBuf : Option (List Nat)
  name : Option String
  deriving Repr, DecidableEq

/-- `StringColumn.__init__(data, null_count=…)`: stores the data, takes
the null count from the data when not supplied, and — when that null
count is positive — immediately allocates a `calc_chunk_size(len, mask_bitsize)`
byte buffer, fills it via `set_null_bitmask`, and stores it as `_mask`. -/
def StringColumn.init (data : Rows) (null_count : Option Nat)
    (name : Option String) : StringColumn :=
  let nc := null_count.getD (countNulls data)
  { rows := data
    nullCount := nc
    maskBuf := if nc > 0 then some (maskBytes data) else none
    name := name }

/-- `StringColumn(data)` with defaulted keyword arguments. -/
def StringColumn.ofRows (data : Rows) : StringColumn :=
  StringColumn.init data none none

/-- `StringColumn.__len__`: `self._data.size()`. -/
def StringColumn.len (c : StringColumn) : Nat := c.rows.length

/-- The `null_count` property: returns the cached `_null_count`. -/
def StringColumn.null_count (c : StringColumn) : Nat := c.nullCount

/-- The `mask` property: returns the cached `_mask` buffer as is. -/
def StringColumn.mask (c : StringColumn) : Option (List Nat) := c.maskBuf

/-! ### Serialization (`StringColumn.serialize` / `deserialize`) -/

/-- One entry of `header["subheaders"]`: the `__cuda_array_interface__`
descriptor of a frame, keeping the fields deserialization reads
(`dtype` string and `shape`). -/
structure SubHeader where
  dtypeStr : String
  shape : Nat
  deriving Repr, DecidableEq

/-- The serialization header map: `null_count`, the pickled type tag,
`nvstrings` (the row count), `subheaders`, `frame_count`. -/
structure SerialHeader where
  null_count : Nat
  typeTag : String
  nvstrings : Nat
  subheaders : List SubHeader
  frame_count : Nat
  deriving Repr, DecidableEq

/-- A transport frame: the validity-mask byte buffer, the character
buffer, or the int32 offsets buffer. -/
inductive Frame where
  | maskF (bytes : List Nat)
  | charsF (chars : List Char)
  | offsetsF (offs : List Nat)
  deriving Repr, DecidableEq

/-- `StringColumn.serialize`: runs `to_offsets` into three fresh buffers
`nbuf` (mask, `calc_chunk_size(len, mask_bitsize)` int8 entries), `sbuf`
(`byte_count()` chars) and `obuf` (`len+1` int32 offsets), then emits the
header and the frames in the fixed order `[nbuf, sbuf, obuf]`. -/
def StringColumn.serialize (c : StringColumn) : SerialHeader × List Frame :=
  let nbuf := maskBytes c.rows
  let sbuf := charsBuf c.rows
  let obuf := offsetsFrom 0 c.rows
  let subs := [⟨"|i1", nbuf.length⟩, ⟨"|i1", sbuf.length⟩, ⟨"<i4", obuf.length⟩]
  let frames := [Frame.maskF nbuf, Frame.charsF sbuf, Frame.offsetsF obuf]
  ({ null_count := c.nullCount
     typeTag := "StringColumn"
     nvstrings := c.rows.length
     subheaders := subs
     frame_count := frames.length },
   frames)

/-- `StringColumn.deserialize(header, frames)`: reads the three frames as
`[nbuf, sbuf, obuf]` and rebuilds the device strings with
`nvstrings.from_offsets(sbuf, obuf, header["nvstrings"], nbuf,
header["null_count"])`; any other frame shape is outside the code's
contract and yields `none`. -/
def StringColumn.deserialize (header : SerialHeader) (frames : List Frame) :
    Option Rows :=
  match frames with
  | [Frame.maskF nbuf, Frame.charsF sbuf, Frame.offsetsF obuf] =>
      some (from_offsets sbuf obuf header.nvstrings nbuf header.null_count)
  | _ => none

/-! ### Helper lemmas for the serialization round trip -/

theorem getD_map_range {α : Type} (f : Nat → α) (d : α) (m j : Nat) (h : j < m) :
    ((List.range m).map f).getD j d = f j := by
  simp [List.getD_eq_getElem?_getD, List.getElem?_map, List.getElem?_range, h]

theorem testBit_byteOfBits (bits : List Bool) (k : Nat) (h : k < bits.length) :
    Nat.testBit (byteOfBits bits) k = bits.getD k false := by
  induction bits generalizing k with
  | nil => simp at h
  | cons b bs ih =>
    cases k with
    | zero =>
      cases b
      all_goals simp [byteOfBits, Nat.testBit_zero, Nat.add_mul_mod_self_left]
    | succ k =>
      have hk : k < bs.length := by simpa using h
      have hdiv : ((if b then 1 else 0) + 2 * byteOfBits bs) / 2 = byteOfBits bs := by
        cases b
        all_goals simp
        all_goals omega
      calc Nat.testBit (byteOfBits (b :: bs)) (k + 1)
          = Nat.testBit (byteOfBits (b :: bs) / 2) k := Nat.testBit_add_one _ _
        _ = Nat.testBit (byteOfBits bs) k := by
            simp only [byteOfBits, List.foldr]
            rw [show (bs.foldr (fun b acc => (if b then 1 else 0) + 2 * acc) 0)
                  = byteOfBits bs from rfl] at *
            rw [hdiv]
        _ = bs.getD k false := ih k hk

theorem testBitArr_maskBytes (rows : Rows) (i : Nat) (h : i < rows.length) :
    testBitArr (maskBytes rows) i = validAt rows i := by
  have hchunk : i / 8 < calc_chunk_size rows.length mask_bitsize := by
    simp only [calc_chunk_size, mask_bitsize]
    omega
  have hmod : i % 8 < 8 := Nat.mod_lt _ (by omega)
  unfold testBitArr maskBytes
  rw [getD_map_range _ _ _ _ hchunk]
  rw [testBit_byteOfBits _ _ (by simpa using hmod)]
  rw [getD_map_range _ _ _ _ hmod]
  congr 1
  omega

theorem offsetsFrom_getD (rows : Rows) (base i : Nat) (h : i ≤ rows.length) :
    (offsetsFrom base rows).getD i 0 = base + startOf rows i := by
  induction rows generalizing base i with
  | nil =>
    have hi : i = 0 := by simpa using h
    subst hi
    simp [offsetsFrom, startOf]
  | cons r rs ih =>
    cases i with
    | zero => simp [offsetsFrom, startOf]
    | succ i =>
      have hi : i ≤ rs.length := by simpa using h
      simp only [offsetsFrom, startOf, List.getD_cons_succ]
      rw [ih _ _ hi]
      omega

theorem startOf_succ (rows : Rows) (i : Nat) (h : i < rows.length) :
    startOf rows (i + 1) = startOf rows i + (rowChars (rows.getD i none)).length := by
  induction rows generalizing i with
  | nil => simp at h
  | cons r rs ih =>
    cases i with
    | zero => simp [startOf]
    | succ i =>
      have hi : i < rs.length := by simpa using h
      simp only [startOf, List.getD_cons_succ]
      rw [ih _ hi]
      omega

theorem charsBuf_drop (rows : Rows) (i : Nat) :
    (charsBuf rows).drop (startOf rows i) = charsBuf (rows.drop i) := by
  induction rows generalizing i with
  | nil => cases i <;> simp [startOf, charsBuf]
  | cons r rs ih =>
    cases i with
    | zero => simp [startOf]
    | succ i =>
      simp only [startOf, charsBuf, List.drop_succ_cons]
      rw [List.drop_append]
      exact ih i

theorem charsBuf_slice (rows : Rows) (i : Nat) (h : i < rows.length) :
    ((charsBuf rows).drop (startOf rows i)).take (rowChars (rows.getD i none)).length
      = rowChars (rows.getD i none) := by
  rw [charsBuf_drop]
  rw [List.drop_eq_getElem_cons h]
  rw [List.getD_eq_getElem rows none h]
  simp only [charsBuf]
  exact List.take_left _ _

/-- The full device round trip behind `serialize`/`deserialize`:
`from_offsets` applied to the buffers `to_offsets` produces rebuilds the
original rows exactly. -/
theorem from_offsets_roundtrip (rows : Rows) :
    from_offsets (charsBuf rows) (offsetsFrom 0 rows) rows.length
      (maskBytes rows) (countNulls rows) = rows := by
  apply List.ext_getElem
  · simp [from_offsets]
  · intro i h1 h2
    simp only [from_offsets, List.getElem_map, List.getElem_range]
    rw [testBitArr_maskBytes rows i h2]
    rw [offsetsFrom_getD rows 0 i (Nat.le_of_lt h2)]
    rw [offsetsFrom_getD rows 0 (i + 1) h2]
    rw [startOf_succ rows i h2]
    simp only [Nat.zero_add]
    have hdiff : startOf rows i + (rowChars (rows.getD i none)).length
        - startOf rows i = (rowChars (rows.getD i none)).length := by omega
    rw [hdiff]
    rw [charsBuf_slice rows i h2]
    rw [List.getD_eq_getElem rows none h2]
    cases hr : rows[i] with
    | none =>
      simp [validAt, List.getD_eq_getElem rows none h2,
        List.getElem?_eq_getElem h2, hr]
    | some s =>
      simp [validAt, List.getD_eq_getElem rows none h2,
        List.getElem?_eq_getElem h2, hr, rowChars]

/-! ### Interchange export (`StringColumn.to_arrow`) -/

/-- The external columnar interchange array built by `to_arrow`: either a
degenerate null-typed array (with its raw buffer list) or a string array
over offsets/chars/validity buffers. -/
inductive ArrowArray where
  | nullArr (length : Nat) (buffers : List (List Nat)) (null_count : Nat)
  | stringArr (length : Nat) (obuf : List Nat) (sbuf : List Char)
      (nbuf : List Nat) (null_count : Nat)
  deriving Repr, DecidableEq

/-- Number of raw buffers handed to the interchange array constructor
(a string array is always built from its three buffers). -/
def ArrowArray.bufferCount : ArrowArray → Nat
  | .nullArr _ bs _ => bs.length
  | .stringArr _ _ _ _ _ => 3

/-- `StringColumn.to_arrow`: runs `to_offsets` into fresh `sbuf`/`obuf`/`nbuf`
host buffers; when `null_count == len(self)` builds
`pa.NullArray.from_buffers(pa.null(), len(self), [pa.py_buffer(b"")], null_count)`
— note the single empty buffer — and otherwise builds
`pa.StringArray.from_buffers(len, obuf, sbuf, nbuf, data.null_count())`. -/
def StringColumn.to_arrow (c : StringColumn) : ArrowArray :=
  let sbuf := charsBuf c.rows
  let obuf := offsetsFrom 0 c.rows
  let nbuf := maskBytes c.rows
  if c.null_count = c.len then
    ArrowArray.nullArr c.len [[]] c.null_count
  else
    ArrowArray.stringArr c.rows.length obuf sbuf nbuf (countNulls c.rows)

/-! ### The operations facade (`StringMethods`) -/

/-- A device-side step taken by a facade operation: allocating an output
device buffer (`rmm.device_array`) or invoking a device primitive. -/
inductive DeviceEff where
  | allocBuffer
  | deviceCall
  deriving Repr, DecidableEq

/-- A typed output column as built by `column.build_column(Buffer(out), dtype,
mask=…)`: the element values plus the optional validity-mask buffer. -/
structure TypedColumn (α : Type) where
  vals : List α
  mask : Option (List Nat)
  deriving Repr, DecidableEq

/-- Whether `needle` is a prefix of `hay` (character lists). -/
def isPrefixChars : List Char → List Char → Bool
  | [], _ => true
  | _ :: _, [] => false
  | a :: as, b :: bs => a = b && isPrefixChars as bs

/-- Whether `needle` occurs contiguously inside `hay` (character lists). -/
def containsSub (needle : List Char) : List Char → Bool
  | [] => isPrefixChars needle []
  | c :: t => isPrefixChars needle (c :: t) || containsSub needle t

/-- Substring test on strings, used to state facts about error messages. -/
def strContains (needle hay : String) : Bool := containsSub needle.data hay.data

/-- Modelled from the spec: String Storage `length()` — per-row byte
length (the device kernel's slot for a null row is masked; modelled 0). -/
def nvLen (rows : Rows) : List Int :=
  rows.map (fun r => ((rowChars r).length : Int))

/-- `StringMethods.len`: allocates an int32 output buffer, runs the device
length primitive, and wraps the output with the parent's mask when the
parent has nulls and with no mask otherwise. -/
def StringMethods.lenRun (parent : StringColumn) :
    List DeviceEff × TypedColumn Int :=
  ([DeviceEff.allocBuffer, DeviceEff.deviceCall],
   { vals := nvLen parent.rows
     mask := if parent.null_count > 0 then parent.mask else none })

/-- `StringMethods.contains(pat, case, flags, na, regex)`: validates
`case`/`flags`/`na` in that order before any device work, then allocates
a bool output buffer and runs the device contains primitive; the
pattern-matching engine itself is the external opaque capability
`engine` (§6 Regex engine). -/
def StringMethods.containsRun (engine : String → Bool → Option String → Bool)
    (parent : StringColumn) (pat : String) (caseArg : Bool) (flags : Int)
    (naIsNan : Bool) (regex : Bool) :
    List DeviceEff × Except String (TypedColumn Bool) :=
  if caseArg ≠ true then
    ([], .error "`case` parameter is not yet supported")
  else if flags ≠ 0 then
    ([], .error "`flags` parameter is not yet supported")
  else if ¬naIsNan then
    ([], .error "`na` parameter is not yet supported")
  else
    ([DeviceEff.allocBuffer, DeviceEff.deviceCall],
     .ok { vals := parent.rows.map (fun r => engine pat regex r)
           mask := if parent.null_count > 0 then parent.mask else none })

/-- `StringMethods.replace(pat, repl, n, case, flags, regex)`: validates
`case` (must be left `None`) and `flags` before any device work,
normalizes `n == 0` to `-1`, then runs the device replace primitive
(external engine `engine`). -/
def StringMethods.replaceRun (engine : String → String → Int → Bool → Rows → Rows)
    (parent : StringColumn) (pat repl : String) (n : Int)
    (caseArg : Option Bool) (flags : Int) (regex : Bool) :
    List DeviceEff × Except String Rows :=
  if caseArg ≠ none then
    ([], .error "`case` parameter is not yet supported")
  else if flags ≠ 0 then
    ([], .error "`flags` parameter is not yet supported")
  else
    let n1 := if n = 0 then -1 else n
    ([DeviceEff.deviceCall], .ok (engine pat repl n1 regex parent.rows))

/-- Result shape of `StringMethods.extract`: a single Series column, or a
DataFrame with one column per capture group. -/
inductive ExtractOut where
  | series (col : Rows)
  | frame (cols : List Rows)
  deriving Repr, DecidableEq

/-- `StringMethods.extract(pat, flags, expand)`: validates `flags` before
any device work, runs the device extract primitive (external engine),
and unwraps a one-group result to a Series when `expand is False`. -/
def StringMethods.extractRun (engine : String → Rows → List Rows)
    (parent : StringColumn) (pat : String) (flags : Int) (expand : Bool) :
    List DeviceEff × Except String ExtractOut :=
  if flags ≠ 0 then
    ([], .error "`flags` parameter is not yet supported")
  else
    let out := engine pat parent.rows
    ([DeviceEff.deviceCall],
     .ok (if out.length = 1 ∧ expand = false then ExtractOut.series (out.headD [])
          else ExtractOut.frame out))

/-- `StringMethods.split(pat, n, expand)`: validates `expand` before any
device work (message: "`expand` parameter is not supported"), normalizes
`n == 0` to `-1`, then runs the device split primitive (external
engine). -/
def StringMethods.splitRun (engine : Option String → Int → Rows → List Rows)
    (parent : StringColumn) (pat : Option String) (n : Int) (expand : Bool) :
    List DeviceEff × Except String (List Rows) :=
  if expand ≠ true then
    ([], .error "`expand` parameter is not supported")
  else
    let n1 := if n = 0 then -1 else n
    ([DeviceEff.deviceCall], .ok (engine pat n1 parent.rows))

/-! ### Concatenation (`StringMethods.cat`, `binary_operator`) -/

/-- Modelled from the spec: `nvstrings.cat(others=None, sep, na_rep)` —
joins all rows into one string with `sep`; a null row is omitted when
`na_rep` is unset and substituted by `na_rep` otherwise; the result is a
single-row device string collection. -/
def nvCatNone (rows : Rows) (sep : Option String) (naRep : Option String) : Rows :=
  let pieces := rows.filterMap (fun r => r.or naRep)
  [some (String.intercalate (sep.getD "") pieces)]

/-- Modelled from the spec: `nvstrings.cat(other, sep, na_rep)` —
element-wise concatenation; a row is null when either operand row is
null and `na_rep` is unset; `na_rep` substitutes for null operands. -/
def nvCatWith (rows other : Rows) (sep : Option String) (naRep : Option String) : Rows :=
  (rows.zip other).map (fun p =>
    match p.1, p.2 with
    | some a, some b => some (a ++ sep.getD "" ++ b)
    | some a, none => naRep.map (fun x => a ++ sep.getD "" ++ x)
    | none, some b => naRep.map (fun x => x ++ sep.getD "" ++ b)
    | none, none => naRep.map (fun x => x ++ sep.getD "" ++ x))

/-- What `StringMethods.cat` hands back: the unwrapped scalar
(`out[0]`, possibly null) or a column. -/
inductive CatResult where
  | scalar (s : Option String)
  | column (rows : Rows)
  deriving Repr, DecidableEq

/-- Boolean test for the scalar shape. -/
def CatResult.isScalarB : CatResult → Bool
  | .scalar _ => true
  | .column _ => false

/-- `StringMethods.cat` on the `others=None` path: delegates to the
device cat, then unwraps `out[0]` to a scalar when the output Series has
exactly one row (`len(out) == 1 and others is None`). -/
def StringMethods.catNone (parent : StringColumn) (sep : Option String)
    (naRep : Option String) : CatResult :=
  let out := nvCatNone parent.rows sep naRep
  if out.length = 1 then CatResult.scalar (out.headD none)
  else CatResult.column out

/-- The right-hand operand handed to `binary_operator`: a string column,
or a value of any other type (carrying its type name for the error
message). -/
inductive BinOperand where
  | strCol (c : StringColumn)
  | nonStr (typeName : String)
  deriving Repr, DecidableEq

/-- The Python `type(...)` display of an operand. -/
def typeNameOf : BinOperand → String
  | .strCol _ => "<class 'cudf.core.column.string.StringColumn'>"
  | .nonStr t => t

/-- The unsupported-operator message
`"{!r} operator not supported between {} and {}".format(binop, type(self), type(rhs))`. -/
def binopErrMsg (binop : String) (rhsType : String) : String :=
  "'" ++ binop ++ "' operator not supported between " ++
    "<class 'cudf.core.column.string.StringColumn'> and " ++ rhsType

/-- `StringColumn.binary_operator(binop, rhs)` (default `reflect=False`):
concatenates via `lhs.data.cat(others=rhs.data)` when `binop == "add"`
and `rhs` is a `StringColumn`; every other operator or operand kind
raises `TypeError` with `binopErrMsg`. -/
def StringColumn.binary_operator (self : StringColumn) (binop : String)
    (rhs : BinOperand) : Except String Rows :=
  match rhs with
  | .strCol r =>
      if binop = "add" then .ok (nvCatWith self.rows r.rows none none)
      else .error (binopErrMsg binop (typeNameOf rhs))
  | .nonStr t => .error (binopErrMsg binop t)

/-! ### `fillna` and `unique` -/

/-- Modelled from the spec: `nvstrings.fillna(scalar)` — every null row
takes the scalar's value; valid rows are unchanged. -/
def nvFillnaScalar (rows : Rows) (s : String) : Rows :=
  rows.map (fun r => some (r.getD s))

/-- Modelled from the spec: `nvstrings.fillna(column)` — each null row
takes the corresponding fill row's value (a null fill row contributes
its zero-length value); valid rows are unchanged. -/
def nvFillnaCol (rows fill : Rows) : Rows :=
  (rows.zip fill).map (fun p => some (p.1.getD (p.2.getD "")))

/-- Modelled from the spec: `Column.replace(mask=None)` — a copy of the
column with the validity mask dropped and a zero null count. -/
def columnReplaceMaskNone (c : StringColumn) : StringColumn :=
  { c with maskBuf := none, nullCount := 0 }

/-- The kinds of `fill_value` the Python call site can pass: a scalar
string, a string Series (its rows), or a value of any other type. -/
inductive FillValue where
  | scalar (s : String)
  | series (rows : Rows)
  | other (typeName : String)
  deriving Repr, DecidableEq

/-- `StringColumn.fillna(fill_value)`: `TypeError` unless the value is a
scalar string or a string Series; `ValueError` when a fill Series is
shorter than `self`; otherwise fills via the device `fillna` (on the
Series truncated to `len(self)`), wraps the result in a new
`StringColumn`, and drops its mask with `replace(mask=None)`. -/
def StringColumn.fillna (c : StringColumn) (v : FillValue) :
    Except String StringColumn :=
  match v with
  | .scalar s =>
      .ok (columnReplaceMaskNone (StringColumn.ofRows (nvFillnaScalar c.rows s)))
  | .series fr =>
      if fr.length < c.len then
        .error "fill value series must be of same or greater length than the series to be filled"
      else
        .ok (columnReplaceMaskNone
          (StringColumn.ofRows (nvFillnaCol c.rows (fr.take c.len))))
  | .other _ => .error "fill_value must be a string or a string series"

/-- Modelled from the spec: `nvcategory.from_strings(data).keys()` — the
deduplicated table of distinct row values; the spec leaves the engine's
key order open, modelled here as first-seen order. -/
def nvcategoryKeys (rows : Rows) : Rows := rows.dedup

/-- `StringColumn.unique(method="sort")`: builds a new `StringColumn`
over the category keys; the `method` argument is never read. -/
def StringColumn.unique (c : StringColumn) (method : String) : StringColumn :=
  let _ := method
  StringColumn.ofRows (nvcategoryKeys c.rows)

/-- Nulls never survive a map that wraps every element in `some`. -/
theorem countNulls_map_some {α : Type} (g : α → String) (l : List α) :
    countNulls (l.map (fun x => some (g x))) = 0 := by
  induction l with
  | nil => rfl
  | cons a l ih => simp [countNulls, List.filter, ih]

/-! ### Claim theorems -/

/-- Claim C1: for every string column, `serialize()` produces a header
carrying the null count, the row count, three subheader descriptors and
a `frame_count`, plus exactly 3 transport frames in the fixed order
`[validity, chars, offsets]`; and `deserialize(header, frames)` on that
output reconstructs the same rows — same row count, same null count,
and the same per-row string values with nulls in the same positions. -/
theorem serialize_deserialize_roundtrip (rows : Rows) :
    ((StringColumn.ofRows rows).serialize.1.null_count = countNulls rows) ∧
    ((StringColumn.ofRows rows).serialize.1.nvstrings = rows.length) ∧
    ((StringColumn.ofRows rows).serialize.1.subheaders.length = 3) ∧
    ((StringColumn.ofRows rows).serialize.1.frame_count = 3) ∧
    ((StringColumn.ofRows rows).serialize.2
      = [Frame.maskF (maskBytes rows), Frame.charsF (charsBuf rows),
         Frame.offsetsF (offsetsFrom 0 rows)]) ∧
    (StringColumn.deserialize (StringColumn.ofRows rows).serialize.1
        (StringColumn.ofRows rows).serialize.2 = some rows) := by
  refine ⟨rfl, rfl, rfl, rfl, rfl, ?_⟩
  show some (from_offsets (charsBuf rows) (offsetsFrom 0 rows) rows.length
    (maskBytes rows) (countNulls rows)) = some rows
  exact congrArg some (from_offsets_roundtrip rows)

/-- Claim C2 (counterexample): constructing a `StringColumn` over a
single null row already materializes the validity-mask buffer inside
`__init__`, before any access to the `mask` property — refuting the
claim that no validity-bitmap buffer is built until `mask` is first
accessed. -/
theorem mask_lazy_counterexample :
    (StringColumn.ofRows [none]).maskBuf = some [0] ∧
    ¬(StringColumn.ofRows [none]).maskBuf = none := by decide

/-- Claim C2 (amended): the validity mask is materialized eagerly inside
`__init__`, exactly when the column has at least one null; the `mask`
property just returns the buffer cached at construction, building
nothing. -/
theorem mask_materialized_in_init (rows : Rows) :
    ((StringColumn.ofRows rows).maskBuf.isSome ↔ 0 < countNulls rows) ∧
    ((StringColumn.ofRows rows).maskBuf
      = if 0 < countNulls rows then some (maskBytes rows) else none) ∧
    ((StringColumn.ofRows rows).mask = (StringColumn.ofRows rows).maskBuf) := by
  refine ⟨?_, rfl, rfl⟩
  by_cases h : 0 < countNulls rows <;>
    simp [StringColumn.ofRows, StringColumn.init, h]

/-- Claim C3 (counterexample): `split` with `expand=False` raises
`NotImplementedError("`expand` parameter is not supported")` — the
message names the parameter but does not contain the phrase
"not yet supported", refuting the claim as stated. -/
theorem split_expand_message_counterexample :
    StringMethods.splitRun (fun _ _ r => [r]) (StringColumn.ofRows [some "a"])
        none (-1) false
      = ([], .error "`expand` parameter is not supported") ∧
    strContains "not yet supported" "`expand` parameter is not supported" = false ∧
    strContains "`expand`" "`expand` parameter is not supported" = true := by
  refine ⟨rfl, by decide, by decide⟩

/-- Claim C3 (amended): `contains`/`replace`/`extract` fail immediately —
empty device-effect trace, so no output buffer and no device primitive —
with a "not yet supported" message naming the offending parameter, when
`case`, `flags` or `na` is non-default; `split` with non-default
`expand` also fails immediately naming the parameter, but its message
reads "not supported" (without "yet"). -/
theorem unsupported_params_fail_fast
    (engC : String → Bool → Option String → Bool)
    (engR : String → String → Int → Bool → Rows → Rows)
    (engE : String → Rows → List Rows)
    (engS : Option String → Int → Rows → List Rows)
    (parent : StringColumn) (pat repl : String) (caseB : Bool)
    (caseO : Option Bool) (flags n : Int) (naIsNan regex expand : Bool) :
    (¬(caseB = true ∧ flags = 0 ∧ naIsNan = true) →
      (StringMethods.containsRun engC parent pat caseB flags naIsNan regex).1 = []) ∧
    (caseB ≠ true →
      StringMethods.containsRun engC parent pat caseB flags naIsNan regex
        = ([], .error "`case` parameter is not yet supported")) ∧
    (flags ≠ 0 →
      StringMethods.containsRun engC parent pat true flags naIsNan regex
        = ([], .error "`flags` parameter is not yet supported")) ∧
    (naIsNan ≠ true →
      StringMethods.containsRun engC parent pat true 0 naIsNan regex
        = ([], .error "`na` parameter is not yet supported")) ∧
    (caseO ≠ none →
      StringMethods.replaceRun engR parent pat repl n caseO flags regex
        = ([], .error "`case` parameter is not yet supported")) ∧
    (flags ≠ 0 →
      StringMethods.replaceRun engR parent pat repl n none flags regex
        = ([], .error "`flags` parameter is not yet supported")) ∧
    (flags ≠ 0 →
      StringMethods.extractRun engE parent pat flags expand
        = ([], .error "`flags` parameter is not yet supported")) ∧
    (expand ≠ true →
      StringMethods.splitRun engS parent none n expand
        = ([], .error "`expand` parameter is not supported")) ∧
    strContains "not yet supported" "`case` parameter is not yet supported" = true ∧
    strContains "not yet supported" "`flags` parameter is not yet supported" = true ∧
    strContains "not yet supported" "`na` parameter is not yet supported" = true ∧
    strContains "not yet supported" "`expand` parameter is not supported" = false := by
  refine ⟨?_, ?_, ?_, ?_, ?_, ?_, ?_, ?_, by decide, by decide, by decide, by decide⟩
  · intro h
    by_cases hc : caseB = true
    · by_cases hf : flags = 0
      · by_cases hn : naIsNan = true
        · exact absurd ⟨hc, hf, hn⟩ h
        · simp [StringMethods.containsRun, hc, hf, hn]
      · simp [StringMethods.containsRun, hc, hf]
    · simp [StringMethods.containsRun, hc]
  · intro hc; simp [StringMethods.containsRun, hc]
  · intro hf; simp [StringMethods.containsRun, hf]
  · intro hn; simp [StringMethods.containsRun, hn]
  · intro hc; simp [StringMethods.replaceRun, hc]
  · intro hf; simp [StringMethods.replaceRun, hf]
  · intro hf; simp [StringMethods.extractRun, hf]
  · intro he; simp [StringMethods.splitRun, he]

/-- Concrete instantiation of `unsupported_params_fail_fast`: each
unsupported option fails with the stated message and no device work. -/
theorem unsupported_params_fail_fast_witness :
    (StringMethods.containsRun (fun _ _ _ => false) (StringColumn.ofRows [])
        "x" false 1 false true).1 = [] ∧
    StringMethods.containsRun (fun _ _ _ => false) (StringColumn.ofRows [])
        "x" false 1 false true
      = ([], .error "`case` parameter is not yet supported") ∧
    StringMethods.containsRun (fun _ _ _ => false) (StringColumn.ofRows [])
        "x" true 1 false true
      = ([], .error "`flags` parameter is not yet supported") ∧
    StringMethods.containsRun (fun _ _ _ => false) (StringColumn.ofRows [])
        "x" true 0 false true
      = ([], .error "`na` parameter is not yet supported") ∧
    StringMethods.replaceRun (fun _ _ _ _ r => r) (StringColumn.ofRows [])
        "x" "y" (-1) (some true) 1 true
      = ([], .error "`case` parameter is not yet supported") ∧
    StringMethods.replaceRun (fun _ _ _ _ r => r) (StringColumn.ofRows [])
        "x" "y" (-1) none 1 true
      = ([], .error "`flags` parameter is not yet supported") ∧
    StringMethods.extractRun (fun _ r => [r]) (StringColumn.ofRows [])
        "x" 1 false
      = ([], .error "`flags` parameter is not yet supported") ∧
    StringMethods.splitRun (fun _ _ r => [r]) (StringColumn.ofRows [])
        none (-1) false
      = ([], .error "`expand` parameter is not supported") := by
  have h := unsupported_params_fail_fast (fun _ _ _ => false)
    (fun _ _ _ _ r => r) (fun _ r => [r]) (fun _ _ r => [r])
    (StringColumn.ofRows []) "x" "y" false (some true) 1 (-1) false true false
  exact ⟨h.1 (by simp), h.2.1 (by simp), h.2.2.1 (by decide),
    h.2.2.2.1 (by simp), h.2.2.2.2.1 (by simp), h.2.2.2.2.2.1 (by decide),
    h.2.2.2.2.2.2.1 (by decide), h.2.2.2.2.2.2.2.1 (by simp)⟩

/-- Claim C4: `cat` with `others=None` returns a scalar rather than a
column exactly when the concatenated output has one row (and the device
cat always produces exactly one row); with `na_rep` unset it joins all
non-null rows with `sep`, omitting null rows; in particular on
`["a", None, "c"]` with `sep=","` it returns the scalar `"a,c"`. -/
theorem cat_none_scalar (rows : Rows) (sep naRep : Option String) :
    ((StringMethods.catNone (StringColumn.ofRows rows) sep naRep).isScalarB = true
      ↔ (nvCatNone rows sep naRep).length = 1) ∧
    (nvCatNone rows sep none
      = [some (String.intercalate (sep.getD "") rows.reduceOption)]) ∧
    (StringMethods.catNone (StringColumn.ofRows [some "a", none, some "c"])
        (some ",") none = CatResult.scalar (some "a,c")) := by
  refine ⟨?_, ?_, by decide⟩
  · simp [StringMethods.catNone, nvCatNone, CatResult.isScalarB]
  · simp only [nvCatNone, List.reduceOption, Option.or_none]
    rfl

/-- Claim C5: `fillna` raises a `TypeError` for a value that is neither
a scalar string nor a string series, a `ValueError` for a fill series
shorter than `self`, and otherwise replaces every null row with the
corresponding scalar/row value, yielding a column with zero nulls. -/
theorem fillna_contract (rows : Rows) :
    (∀ t, StringColumn.fillna (StringColumn.ofRows rows) (FillValue.other t)
      = .error "fill_value must be a string or a string series") ∧
    (∀ fr : Rows, fr.length < rows.length →
      StringColumn.fillna (StringColumn.ofRows rows) (FillValue.series fr)
        = .error "fill value series must be of same or greater length than the series to be filled") ∧
    (∀ s, StringColumn.fillna (StringColumn.ofRows rows) (FillValue.scalar s)
        = .ok (columnReplaceMaskNone (StringColumn.ofRows (nvFillnaScalar rows s))) ∧
      (columnReplaceMaskNone (StringColumn.ofRows (nvFillnaScalar rows s))).rows
        = rows.map (fun r => some (r.getD s)) ∧
      (columnReplaceMaskNone (StringColumn.ofRows (nvFillnaScalar rows s))).null_count = 0 ∧
      countNulls (nvFillnaScalar rows s) = 0) ∧
    (∀ fr : Rows, rows.length ≤ fr.length →
      StringColumn.fillna (StringColumn.ofRows rows) (FillValue.series fr)
        = .ok (columnReplaceMaskNone
            (StringColumn.ofRows (nvFillnaCol rows (fr.take rows.length)))) ∧
      (columnReplaceMaskNone
          (StringColumn.ofRows (nvFillnaCol rows (fr.take rows.length)))).rows
        = (rows.zip (fr.take rows.length)).map (fun p => some (p.1.getD (p.2.getD ""))) ∧
      (columnReplaceMaskNone
          (StringColumn.ofRows (nvFillnaCol rows (fr.take rows.length)))).null_count = 0 ∧
      countNulls (nvFillnaCol rows (fr.take rows.length)) = 0) := by
  refine ⟨fun t => rfl, ?_, ?_, ?_⟩
  · intro fr h
    simp [StringColumn.fillna, StringColumn.len, StringColumn.ofRows,
      StringColumn.init, h]
  · intro s
    exact ⟨rfl, rfl, rfl, countNulls_map_some _ rows⟩
  · intro fr h
    refine ⟨?_, rfl, rfl, countNulls_map_some _ (rows.zip (fr.take rows.length))⟩
    simp [StringColumn.fillna, StringColumn.len, StringColumn.ofRows,
      StringColumn.init, Nat.not_lt.mpr h]

/-- Concrete instantiation of `fillna_contract`: the spec's example
`fillna(["x", None], "y") = ["x", "y"]` with zero nulls, the
too-short-series error, and the type error. -/
theorem fillna_contract_witness :
    (columnReplaceMaskNone
        (StringColumn.ofRows (nvFillnaScalar [some "x", none] "y"))).rows
      = [some "x", some "y"] ∧
    (columnReplaceMaskNone
        (StringColumn.ofRows (nvFillnaScalar [some "x", none] "y"))).null_count = 0 ∧
    StringColumn.fillna (StringColumn.ofRows [some "x", none])
        (FillValue.series [some "z"])
      = .error "fill value series must be of same or greater length than the series to be filled" ∧
    StringColumn.fillna (StringColumn.ofRows [some "x", none])
        (FillValue.other "<class 'int'>")
      = .error "fill_value must be a string or a string series" := by
  have h := fillna_contract [some "x", none]
  refine ⟨?_, (h.2.2.1 "y").2.2.1, h.2.1 [some "z"] (by decide),
    h.1 "<class 'int'>"⟩
  rw [(h.2.2.1 "y").2.1]
  rfl

/-- Claim C6: `binary_operator(binop, rhs)` succeeds only when `binop`
is `"add"` and `rhs` is a string column, performing element-wise
concatenation; every other operator or operand kind fails with an
unsupported-operator error naming the operator and both operand types,
producing no result. -/
theorem binary_operator_add_only (self : StringColumn) (binop : String)
    (rhs : BinOperand) :
    (∀ r, rhs = BinOperand.strCol r → binop = "add" →
      self.binary_operator binop rhs = .ok (nvCatWith self.rows r.rows none none)) ∧
    (binop ≠ "add" →
      self.binary_operator binop rhs = .error (binopErrMsg binop (typeNameOf rhs))) ∧
    (∀ t, rhs = BinOperand.nonStr t →
      self.binary_operator binop rhs = .error (binopErrMsg binop t)) ∧
    (∀ out, self.binary_operator binop rhs = .ok out →
      binop = "add" ∧ ∃ r, rhs = BinOperand.strCol r ∧
        out = nvCatWith self.rows r.rows none none) := by
  refine ⟨?_, ?_, ?_, ?_⟩
  · rintro r rfl rfl
    simp [StringColumn.binary_operator]
  · intro hb
    cases rhs <;> simp [StringColumn.binary_operator, typeNameOf, hb]
  · rintro t rfl
    simp [StringColumn.binary_operator]
  · intro out hout
    cases rhs with
    | strCol r =>
      by_cases hb : binop = "add"
      · subst hb
        simp [StringColumn.binary_operator] at hout
        exact ⟨rfl, r, rfl, hout.symm⟩
      · simp [StringColumn.binary_operator, hb] at hout
    | nonStr t => simp [StringColumn.binary_operator] at hout

/-- Concrete instantiation of `binary_operator_add_only`: `"sub"` on a
non-column operand fails with the typed message; `"add"` between two
string columns concatenates. -/
theorem binary_operator_add_only_witness :
    (StringColumn.ofRows []).binary_operator "sub" (BinOperand.nonStr "<class 'int'>")
      = .error (binopErrMsg "sub" "<class 'int'>") ∧
    (StringColumn.ofRows [some "a"]).binary_operator "add"
        (BinOperand.strCol (StringColumn.ofRows [some "b"]))
      = .ok (nvCatWith [some "a"] [some "b"] none none) := by
  constructor
  · exact (binary_operator_add_only (StringColumn.ofRows []) "sub"
      (BinOperand.nonStr "<class 'int'>")).2.2.1 _ rfl
  · exact (binary_operator_add_only (StringColumn.ofRows [some "a"]) "add"
      (BinOperand.strCol (StringColumn.ofRows [some "b"]))).1 _ rfl rfl

/-- Claim C7 (counterexample): `to_arrow` on an all-null column builds
the degenerate null array from `[pa.py_buffer(b"")]` — one (empty)
payload buffer, not zero buffers. -/
theorem to_arrow_allnull_counterexample :
    (StringColumn.ofRows [none]).to_arrow = ArrowArray.nullArr 1 [[]] 1 ∧
    ((StringColumn.ofRows [none]).to_arrow).bufferCount = 1 ∧
    ¬((StringColumn.ofRows [none]).to_arrow).bufferCount = 0 := by decide

/-- Claim C7 (amended): a column with `null_count == row_count` exports
as the degenerate null-typed array built over a single zero-length
buffer; every other column exports as a string array built from the
offsets, chars and validity buffers. -/
theorem to_arrow_cases (rows : Rows) :
    (StringColumn.ofRows rows).to_arrow =
      (if countNulls rows = rows.length then
        ArrowArray.nullArr rows.length [[]] (countNulls rows)
      else
        ArrowArray.stringArr rows.length (offsetsFrom 0 rows) (charsBuf rows)
          (maskBytes rows) (countNulls rows)) := rfl

/-- Claim C8: `len` and `contains` build their output column with the
validity mask copied from the input column whenever the input has at
least one null, and with no mask whenever the input has no nulls. -/
theorem output_mask_policy (rows : Rows)
    (engine : String → Bool → Option String → Bool) (pat : String) (regex : Bool) :
    ((StringMethods.lenRun (StringColumn.ofRows rows)).2.mask
      = if 0 < countNulls rows then some (maskBytes rows) else none) ∧
    ((StringMethods.lenRun (StringColumn.ofRows rows)).2.vals = nvLen rows) ∧
    ((StringMethods.containsRun engine (StringColumn.ofRows rows) pat true 0 true regex).2
      = .ok { vals := rows.map (fun r => engine pat regex r)
              mask := if 0 < countNulls rows then some (maskBytes rows) else none }) ∧
    ((StringColumn.ofRows rows).mask
      = if 0 < countNulls rows then some (maskBytes rows) else none) := by
  refine ⟨?_, rfl, ?_, rfl⟩
  · by_cases h : 0 < countNulls rows <;>
      simp [StringMethods.lenRun, StringColumn.ofRows, StringColumn.init,
        StringColumn.null_count, StringColumn.mask, h]
  · by_cases h : 0 < countNulls rows <;>
      simp [StringMethods.containsRun, StringColumn.ofRows, StringColumn.init,
        StringColumn.null_count, StringColumn.mask, h]

/-- Claim C9: the empty column (`row_count == 0`) exports as the
degenerate null-typed array — the all-null test `null_count == len(self)`
holds vacuously at `0 == 0` — not as an empty string array. -/
theorem to_arrow_empty_null_array :
    (StringColumn.ofRows []).to_arrow = ArrowArray.nullArr 0 [[]] 0 := by decide

/-- Claim C10: `unique(method=m)` returns exactly the result of
`unique()` with the default method — the `method` argument is never
read, so the distinct keys and their order are identical. -/
theorem unique_method_ignored (c : StringColumn) (m : String) :
    c.unique m = c.unique "sort" := rfl

end CudfString
